import Mathlib

/-!
Shallow embedding of `src/lib/memorystore.js` (the memorystore session
store) together with a spec-based model of the bounded TTL cache it
delegates to.  The adapter layer in `src/lib/memorystore.js` is embedded
definition by definition from the source; the cache engine itself is the
external `lru-cache` dependency, whose sources are not part of this
repository, so its operations are modelled from the specification
(sections 3 and 4.1 of the design document): an association list kept in
most-recently-used-first order, a maximum entry count, and per-entry
expiration timestamps.

JavaScript numbers are modelled as integers (every numeric value the
claims exercise is an integer number of milliseconds), so Math.floor is
the identity on this model.
-/

namespace Memorystore

/-- Source line 15: `var oneDay = 3600000`.  The source comment above it
reads "One day in milliseconds", yet 3600000 ms is one hour. -/
def oneDay : Int := 3600000

/-- The actual number of milliseconds in one day, for comparison. -/
def oneDayMillis : Int := 86400000

/-- Math.floor.  JavaScript numbers are modelled as integers, on which
floor is the identity. -/
def mathFloor (n : Int) : Int := n

/-- Cookie record of a session value; `maxAge` is `some n` exactly when
`typeof maxAge === 'number'` holds in the source, and `none` for any
non-numeric value (undefined included). -/
structure Cookie where
  maxAge : Option Int
deriving DecidableEq, Repr

/-- Session value.  `cookie` is `none` when the session object has no
cookie property (`sess.cookie` is undefined); `id` is the field the `all`
enumeration assigns; `data` stands for the rest of the opaque record. -/
structure Sess where
  cookie : Option Cookie
  id : Option String := none
  data : String := ""
deriving DecidableEq, Repr

/-- A JavaScript value as it can appear in the `options.ttl` slot:
undefined, null, a boolean, a string, a number, or a resolver function.
The source resolver receives `(options, sess, sid)`; the `options`
argument is the very record holding the resolver, so the embedding breaks
the circularity by modelling the resolver as a function of the session
and the sid (no claim depends on the first argument). -/
inductive TTLVal where
  | undef : TTLVal
  | nullV : TTLVal
  | boolV : Bool → TTLVal
  | strV : String → TTLVal
  | numV : Int → TTLVal
  | funV : (Sess → String → Int) → TTLVal

/-- JavaScript truthiness of a `TTLVal`, as tested by `if (options.ttl)`
on source line 20. -/
def TTLVal.truthy : TTLVal → Bool
  | .undef => false
  | .nullV => false
  | .boolV b => b
  | .strV s => s ≠ ""
  | .numV n => n ≠ 0
  | .funV _ => true

/-- Test `typeof options.ttl === 'number'` (source line 18). -/
def TTLVal.isNumber : TTLVal → Bool
  | .numV _ => true
  | _ => false

/-- Test `typeof options.ttl === 'function'` (source line 19). -/
def TTLVal.isFunction : TTLVal → Bool
  | .funV _ => true
  | _ => false

/-- Errors that `getTTL` can raise synchronously: the explicit TypeError
of source line 20, and the TypeError JavaScript raises on line 22 when
`sess.cookie` is undefined and `.maxAge` is read from it. -/
inductive JsError where
  | ttlTypeError : JsError
  | undefinedCookie : JsError
deriving DecidableEq, Repr

/-- The first argument of `getTTL` is an arbitrary object of which only
the `ttl` property is read; the embedding passes a record with exactly
that field. -/
structure TtlHolder where
  ttl : TTLVal

/-- Source lines 17 to 26:

```
function getTTL (options, sess, sid) {
  if (typeof options.ttl === 'number') return options.ttl
  if (typeof options.ttl === 'function') return options.ttl(options, sess, sid)
  if (options.ttl) throw new TypeError(...)
  var maxAge = sess.cookie.maxAge
  return (typeof maxAge === 'number' ? Math.floor(maxAge) : oneDay)
}
```

Raising is modelled by `Except.error`. -/
def getTTL (options : TtlHolder) (sess : Sess) (sid : String) : Except JsError Int :=
  match options.ttl with
  | .numV n => .ok n
  | .funV f => .ok (f sess sid)
  | v =>
    if v.truthy then .error .ttlTypeError
    else
      match sess.cookie with
      | none => .error .undefinedCookie
      | some cookie =>
        match cookie.maxAge with
        | some maxAge => .ok (mathFloor maxAge)
        | none => .ok oneDay

/-! ## The bounded TTL cache, modelled from the spec

Modelled from the spec: the cache engine is supplied by the `lru-cache`
dependency, which is not among the sources of this repository.  Sections
3 and 4.1 of the specification describe it: a mapping from key to entry
with a maximum entry count, per-entry expiration timestamps
(`insertedOrUpdatedAt + ttlMillis`), an access-order structure with the
most-recently-used entry at one end, synchronous LRU eviction on insert,
and lazy expiration on read. -/

/-- Modelled from the spec: a cache entry, with the timestamp of its last
insert-or-update and its time to live in milliseconds. -/
structure Entry where
  value : Sess
  insertedAt : Int
  ttl : Int
deriving DecidableEq, Repr

/-- Modelled from the spec: an entry is expired exactly when
`insertedOrUpdatedAt + ttlMillis` is no longer in the future. -/
def Entry.expired (e : Entry) (now : Int) : Bool := e.insertedAt + e.ttl ≤ now

/-- Modelled from the spec: cache state.  `entries` is kept in
most-recently-used-first order; `max` is the entry cap, `none` standing
for Infinity (unbounded). -/
structure Cache where
  entries : List (String × Entry)
  max : Option Nat
deriving DecidableEq, Repr

/-- Look a key up in the association list. -/
def lookupKey (k : String) : List (String × Entry) → Option Entry
  | [] => none
  | (k', e) :: rest => if k' = k then some e else lookupKey k rest

/-- Modelled from the spec: trim the most-recently-used-first list to the
entry cap; since the most recent entries are at the front, keeping the
first `m` drops exactly the least-recently-used ones. -/
def trimToMax (max : Option Nat) (l : List (String × Entry)) : List (String × Entry) :=
  match max with
  | none => l
  | some m => l.take m

/-- Modelled from the spec: `get` returns absent for a missing or expired
key (lazy expiration on read) and otherwise moves the entry to the
most-recently-used position and returns its value. -/
def Cache.getOp (c : Cache) (k : String) (now : Int) : Option Sess × Cache :=
  match lookupKey k c.entries with
  | none => (none, c)
  | some e =>
    if e.expired now then (none, c)
    else (some e.value, ⟨(k, e) :: c.entries.filter (fun p => p.1 ≠ k), c.max⟩)

/-- Modelled from the spec: `set` inserts or replaces the entry for `k`,
stamps it with the current time and the resolved ttl, places it at the
most-recently-used position, and evicts least-recently-used entries until
the count is back at or below the cap. -/
def Cache.setOp (c : Cache) (k : String) (v : Sess) (ttl : Int) (now : Int) : Cache :=
  ⟨trimToMax c.max ((k, ⟨v, now, ttl⟩) :: c.entries.filter (fun p => p.1 ≠ k)), c.max⟩

/-- Modelled from the spec: `del` removes the entry unconditionally;
deleting an absent key is a no-op. -/
def Cache.delOp (c : Cache) (k : String) : Cache :=
  ⟨c.entries.filter (fun p => p.1 ≠ k), c.max⟩

/-- Modelled from the spec: `reset` empties the cache. -/
def Cache.resetOp (c : Cache) : Cache := ⟨[], c.max⟩

/-- Modelled from the spec: the keys of all non-expired entries. -/
def Cache.keysOp (c : Cache) (now : Int) : List String :=
  (c.entries.filter (fun p => ¬ p.2.expired now)).map Prod.fst

/-- Modelled from the spec: the number of stored entries (the `itemCount`
property the adapter reads). -/
def Cache.itemCount (c : Cache) : Nat := c.entries.length

/-- Modelled from the spec: `forEach` visits every non-expired entry.
The adapter callback of `all` (source lines 188 to 191) assigns
`val.id = key` on each visited value; since stored values are object
references, the assignment mutates the stored entry too.  Returns the
list of visited values together with the mutated cache. -/
def Cache.forEachAll (c : Cache) (now : Int) : List Sess × Cache :=
  let upd := c.entries.map fun p =>
    if p.2.expired now then p
    else (p.1, { p.2 with value := { p.2.value with id := some p.1 } })
  ((upd.filter (fun p => ¬ p.2.expired now)).map (fun p => p.2.value), ⟨upd, c.max⟩)

/-- The `lru-cache` instance has no `ttl` property, so the property read
`store.ttl` performed by `touch` (source line 154) yields undefined. -/
def Cache.ttl (_ : Cache) : TTLVal := TTLVal.undef

/-! ## The MemoryStore adapter, embedded from `src/lib/memorystore.js` -/

/-- Options as passed to the constructor; a `none` field is an absent
property.  `checkPeriod` and `max` are numbers when given (`max` as a
natural count of entries). -/
structure OptionsIn where
  checkPeriod : Option Int := none
  max : Option Nat := none
  ttl : TTLVal := TTLVal.undef

/-- Options after the normalization of source lines 64 to 67. -/
structure StoreOptions where
  checkPeriod : Int
  max : Option Nat
  ttl : TTLVal

/-- Source line 65: `this.options.checkPeriod = options.checkPeriod || oneDay`.
A given 0 is falsy and also falls back to `oneDay`. -/
def normCheckPeriod : Option Int → Int
  | none => oneDay
  | some c => if c = 0 then oneDay else c

/-- Source line 66: `this.options.max = options.max || Infinity`.  A given
0 is falsy in JavaScript, so `max: 0` yields Infinity (modelled `none`),
an unbounded store. -/
def normMax : Option Nat → Option Nat
  | none => none
  | some m => if m = 0 then none else some m

/-- Normalization performed by the constructor, source lines 64 to 67. -/
def normalizeOptions (o : OptionsIn) : StoreOptions :=
  { checkPeriod := normCheckPeriod o.checkPeriod
    max := normMax o.max
    ttl := o.ttl }

/-- The store: the normalized options and the lru-cache instance.  The
recurring prune interval started on source lines 72 to 75 carries no
cache state of its own and is not part of the state. -/
structure MemoryStore where
  options : StoreOptions
  store : Cache

/-- Constructor, source lines 54 to 76: normalize the options and build
the cache (`this.store = LRU(this.options)`), initially empty. -/
def mkMemoryStore (o : OptionsIn) : MemoryStore :=
  let opts := normalizeOptions o
  { options := opts, store := { entries := [], max := opts.max } }

/-- Names of the methods the source installs on `MemoryStore.prototype`
(source lines 92, 111, 127, 151, 168, 183, 202 and 216).  No other method
is defined, and `clearInterval` is never called anywhere in the source. -/
def memoryStorePrototypeMethods : List String :=
  ["get", "set", "destroy", "touch", "ids", "all", "clear", "length"]

/-- Source lines 92 to 100: `get` reads `store.get(sid)` and hands the
data to the callback.  Returns the callback payload and the store after
the read (the lru-cache read refreshes recency). -/
def MemoryStore.get (s : MemoryStore) (sid : String) (now : Int) :
    Option Sess × MemoryStore :=
  let r := s.store.getOp sid now
  (r.1, { s with store := r.2 })

/-- Source lines 111 to 118: `set` resolves the ttl with
`getTTL(this.options, sess, sid)` and stores the session with it.  A
`getTTL` throw propagates synchronously. -/
def MemoryStore.set (s : MemoryStore) (sid : String) (sess : Sess) (now : Int) :
    Except JsError MemoryStore :=
  match getTTL ⟨s.options.ttl⟩ sess sid with
  | .error e => .error e
  | .ok ttl => .ok { s with store := s.store.setOp sid sess ttl now }

/-- Source lines 127 to 140: `destroy` deletes one key, or each key of an
array (`Array.isArray(sid)`), and never errors. -/
def MemoryStore.destroy (s : MemoryStore) (sid : String ⊕ List String) : MemoryStore :=
  match sid with
  | .inl k => { s with store := s.store.delOp k }
  | .inr ks => { s with store := ks.foldl Cache.delOp s.store }

/-- Source lines 151 to 159: `touch` resolves the ttl with
`getTTL(store, sess, sid)` — the lru-cache instance, not the configured
options — and re-stores the session with it. -/
def MemoryStore.touch (s : MemoryStore) (sid : String) (sess : Sess) (now : Int) :
    Except JsError MemoryStore :=
  match getTTL ⟨s.store.ttl⟩ sess sid with
  | .error e => .error e
  | .ok ttl => .ok { s with store := s.store.setOp sid sess ttl now }

/-- Source lines 168 to 174: `ids` hands `store.keys()` to the callback. -/
def MemoryStore.ids (s : MemoryStore) (now : Int) : List String :=
  s.store.keysOp now

/-- Source lines 183 to 193: `all` iterates the cache with `forEach`,
assigns `val.id = key` on each visited value, and collects the values.
Returns the callback payload and the store with the mutated values. -/
def MemoryStore.all (s : MemoryStore) (now : Int) : List Sess × MemoryStore :=
  let r := s.store.forEachAll now
  (r.1, { s with store := r.2 })

/-- Source lines 202 to 207: `clear` resets the cache. -/
def MemoryStore.clear (s : MemoryStore) : MemoryStore :=
  { s with store := s.store.resetOp }

/-- Source lines 216 to 220: `length` hands `store.itemCount` to the
callback. -/
def MemoryStore.length (s : MemoryStore) : Nat :=
  s.store.itemCount

/-- A sequence of `set` calls, each as `(sid, sess, now)`.  A call whose
`getTTL` throws leaves the store unchanged (the exception propagates to
that caller and no mutation happens). -/
def applySets (s : MemoryStore) : List (String × Sess × Int) → MemoryStore
  | [] => s
  | (sid, sess, now) :: rest =>
    applySets (match s.set sid sess now with
      | .ok s' => s'
      | .error _ => s) rest

/-! ## Helper lemmas about the cache model -/

theorem lookupKey_cons_self (k : String) (e : Entry) (l : List (String × Entry)) :
    lookupKey k ((k, e) :: l) = some e := by
  simp [lookupKey]

theorem lookupKey_eq_none_iff (k : String) (l : List (String × Entry)) :
    lookupKey k l = none ↔ ∀ p ∈ l, p.1 ≠ k := by
  induction l with
  | nil => simp [lookupKey]
  | cons a rest ih =>
    obtain ⟨k', e'⟩ := a
    simp only [lookupKey]
    by_cases hk : k' = k
    · subst hk
      rw [if_pos rfl]
      constructor
      · intro h
        cases h
      · intro h
        exact absurd rfl (h (k', e') (List.mem_cons_self _ _))
    · rw [if_neg hk, ih]
      constructor
      · intro h p hp
        rcases List.mem_cons.mp hp with h1 | h2
        · rw [h1]
          exact hk
        · exact h p h2
      · intro h p hp
        exact h p (List.mem_cons_of_mem _ hp)

theorem mem_of_lookupKey (k : String) (l : List (String × Entry)) (e : Entry)
    (h : lookupKey k l = some e) : (k, e) ∈ l := by
  induction l with
  | nil => cases h
  | cons a rest ih =>
    obtain ⟨k', e'⟩ := a
    simp only [lookupKey] at h
    by_cases hk : k' = k
    · rw [if_pos hk] at h
      injection h with h
      subst hk
      subst h
      exact List.mem_cons_self _ _
    · rw [if_neg hk] at h
      exact List.mem_cons_of_mem _ (ih h)

theorem lookupKey_filter_ne (k : String) (l : List (String × Entry)) :
    lookupKey k (l.filter (fun p => p.1 ≠ k)) = none := by
  rw [lookupKey_eq_none_iff]
  intro p hp
  have := (List.mem_filter.mp hp).2
  simpa using this

theorem filter_ne_of_lookup_none (k : String) (l : List (String × Entry))
    (h : lookupKey k l = none) : l.filter (fun p => p.1 ≠ k) = l :=
  List.filter_eq_self.mpr (fun a ha => by
    have := (lookupKey_eq_none_iff k l).mp h a ha
    simpa using this)

theorem filter_self_idem (p : String × Entry → Bool) (l : List (String × Entry)) :
    (l.filter p).filter p = l.filter p :=
  List.filter_eq_self.mpr (fun _ ha => (List.mem_filter.mp ha).2)

theorem lookupKey_trim_cons_of_pos (m : Nat) (hm : 1 ≤ m) (k : String) (e : Entry)
    (l : List (String × Entry)) :
    lookupKey k (trimToMax (some m) ((k, e) :: l)) = some e := by
  cases m with
  | zero => omega
  | succ m' => simp [trimToMax, List.take_succ_cons, lookupKey_cons_self]

theorem lookupKey_setOp_self (c : Cache)
    (hmax : c.max = none ∨ ∃ N, c.max = some N ∧ 1 ≤ N)
    (k : String) (v : Sess) (ttl now : Int) :
    lookupKey k (c.setOp k v ttl now).entries = some ⟨v, now, ttl⟩ := by
  rcases hmax with h | ⟨N, h, hN⟩
  · simp [Cache.setOp, trimToMax, h, lookupKey_cons_self]
  · simp only [Cache.setOp, h]
    exact lookupKey_trim_cons_of_pos N hN k _ _

theorem lookupKey_setOp_cases (c : Cache) (k : String) (v : Sess) (ttl now : Int) :
    lookupKey k (c.setOp k v ttl now).entries = some ⟨v, now, ttl⟩ ∨
    lookupKey k (c.setOp k v ttl now).entries = none := by
  cases hm : c.max with
  | none => exact Or.inl (lookupKey_setOp_self c (Or.inl hm) k v ttl now)
  | some m =>
    cases m with
    | zero =>
      right
      simp [Cache.setOp, trimToMax, hm, lookupKey]
    | succ m' =>
      exact Or.inl (lookupKey_setOp_self c
        (Or.inr ⟨m' + 1, hm, Nat.succ_le_succ (Nat.zero_le _)⟩) k v ttl now)

theorem getOp_eq_none_of_lookup_none (c : Cache) (k : String) (now : Int)
    (h : lookupKey k c.entries = none) : (c.getOp k now).1 = none := by
  simp [Cache.getOp, h]

theorem getOp_eq_none_of_expired (c : Cache) (k : String) (now : Int) (e : Entry)
    (h : lookupKey k c.entries = some e) (hx : e.insertedAt + e.ttl ≤ now) :
    (c.getOp k now).1 = none := by
  simp [Cache.getOp, h, Entry.expired, hx]

theorem getOp_eq_value_of_live (c : Cache) (k : String) (now : Int) (e : Entry)
    (h : lookupKey k c.entries = some e) (hx : ¬ (e.insertedAt + e.ttl ≤ now)) :
    (c.getOp k now).1 = some e.value := by
  simp [Cache.getOp, h, Entry.expired, hx]

/-! ## Concrete fixtures -/

/-- A session whose cookie has the numeric maxAge 7000. -/
def sessMax7000 : Sess := { cookie := some ⟨some 7000⟩ }

/-- A session whose cookie carries no numeric maxAge. -/
def sessNoMaxAge : Sess := { cookie := some ⟨none⟩ }

/-- A session without a cookie property. -/
def sessNoCookie : Sess := { cookie := none }

/-- A store configured with the fixed numeric ttl 5000. -/
def storeTtl5000 : MemoryStore := mkMemoryStore { ttl := .numV 5000 }

/-- A store configured with `ttl: false` (present, neither a number nor a
function, and falsy). -/
def storeTtlFalse : MemoryStore := mkMemoryStore { ttl := .boolV false }

/-- A store configured with the string ttl "x" (present, truthy, neither
a number nor a function). -/
def storeTtlStr : MemoryStore := mkMemoryStore { ttl := .strV "x" }

/-! ## Claims -/

/-- C1: the claim says that with no configured ttl and no numeric max-age
the entry is stored with a default TTL of one day, 86400000 ms.  The code
instead uses the constant `oneDay = 3600000`, which is one hour, even
though the source comment above the constant reads "One day in
milliseconds": the stored default TTL is 3600000 ms. -/
theorem C1_default_ttl_is_one_hour :
    getTTL ⟨TTLVal.undef⟩ sessNoMaxAge "sid" = Except.ok 3600000 ∧
    Except.map (fun s => lookupKey "sid" s.store.entries)
        ((mkMemoryStore {}).set "sid" sessNoMaxAge 0)
      = Except.ok (some ⟨sessNoMaxAge, 0, 3600000⟩) ∧
    oneDay ≠ oneDayMillis := by
  refine ⟨rfl, rfl, by decide⟩

/-- C2 counterexample: the source installs no shutdown method on
`MemoryStore.prototype`, so the store does not expose a shutdown
operation. -/
theorem C2_counterexample : "shutdown" ∉ memoryStorePrototypeMethods := by
  decide

/-- C2 amended: the prototype methods are exactly get, set, destroy,
touch, ids, all, clear and length; no shutdown (or stopInterval)
operation exists, so the sweeper interval started at construction is
never cancelled by the store. -/
theorem C2_no_shutdown_method :
    memoryStorePrototypeMethods
      = ["get", "set", "destroy", "touch", "ids", "all", "clear", "length"] ∧
    "shutdown" ∉ memoryStorePrototypeMethods ∧
    "stopInterval" ∉ memoryStorePrototypeMethods := by
  decide

/-- C3: with a configured numeric ttl of 5000 and a session whose cookie
maxAge is 7000, `set` stores the entry with ttl 5000 but `touch` stores
it with ttl 7000: `touch` resolves the ttl from the lru-cache instance
(whose `ttl` property is undefined) and so falls back to the session
maxAge, diverging from the policy `set` applies. -/
theorem C3_touch_ttl_differs_from_set :
    Except.map (fun s => lookupKey "sid" s.store.entries)
        (storeTtl5000.set "sid" sessMax7000 0)
      = Except.ok (some ⟨sessMax7000, 0, 5000⟩) ∧
    Except.map (fun s => lookupKey "sid" s.store.entries)
        (storeTtl5000.touch "sid" sessMax7000 0)
      = Except.ok (some ⟨sessMax7000, 0, 7000⟩) ∧
    (5000 : Int) ≠ 7000 := by
  refine ⟨rfl, rfl, by decide⟩

/-- C5 counterexample: `ttl: false` is present and neither a number nor a
function, yet `set` raises no TypeError: the truthiness guard on source
line 20 skips every falsy value, and resolution silently falls through to
the session maxAge. -/
theorem C5_counterexample :
    getTTL ⟨TTLVal.boolV false⟩ sessMax7000 "sid" = Except.ok 7000 ∧
    (Except.ok 7000 : Except JsError Int) ≠ Except.error JsError.ttlTypeError ∧
    Except.map (fun s => lookupKey "sid" s.store.entries)
        (storeTtlFalse.set "sid" sessMax7000 0)
      = Except.ok (some ⟨sessMax7000, 0, 7000⟩) := by
  exact ⟨rfl, fun h => Except.noConfusion h, rfl⟩

/-- C5 amended: if the configured ttl option is truthy and neither a
number nor a function, `set` raises the TypeError synchronously; falsy
non-number non-function values (false, null, the empty string) are
silently ignored and fall through to the maxAge/default resolution. -/
theorem C5_truthy_bad_ttl_raises (v : TTLVal) (ht : v.truthy = true)
    (hn : v.isNumber = false) (hf : v.isFunction = false)
    (sess : Sess) (sid : String) (s : MemoryStore) (hs : s.options.ttl = v)
    (now : Int) :
    getTTL ⟨v⟩ sess sid = Except.error JsError.ttlTypeError ∧
    s.set sid sess now = Except.error JsError.ttlTypeError := by
  have hget : getTTL ⟨v⟩ sess sid = Except.error JsError.ttlTypeError := by
    cases v <;> simp_all [getTTL, TTLVal.truthy, TTLVal.isNumber, TTLVal.isFunction]
  refine ⟨hget, ?_⟩
  unfold MemoryStore.set
  rw [hs, hget]

/-- C5 witness: the amended theorem applied to the concrete store
configured with the string ttl "x". -/
theorem C5_witness :
    TTLVal.truthy (.strV "x") = true ∧
    TTLVal.isNumber (.strV "x") = false ∧
    TTLVal.isFunction (.strV "x") = false ∧
    getTTL ⟨TTLVal.strV "x"⟩ sessMax7000 "sid"
      = Except.error JsError.ttlTypeError ∧
    storeTtlStr.set "sid" sessMax7000 0 = Except.error JsError.ttlTypeError := by
  have h := C5_truthy_bad_ttl_raises (.strV "x") (by decide) (by decide) (by decide)
    sessMax7000 "sid" storeTtlStr rfl 0
  exact ⟨by decide, rfl, rfl, h.1, h.2⟩

/-- C6: get returns absent when the key is missing (never set, or
deleted), and when the TTL of its entry has elapsed as of the read time —
in particular an entry set with ttl t and read more than t milliseconds
later is absent, with no sweep involved. -/
theorem C6_get_absent (c : Cache) (k : String) (now : Int) :
    (lookupKey k c.entries = none → (c.getOp k now).1 = none) ∧
    (∀ e, lookupKey k c.entries = some e → e.insertedAt + e.ttl ≤ now →
      (c.getOp k now).1 = none) ∧
    ((c.delOp k).getOp k now).1 = none ∧
    (∀ v t now', now + t < now' →
      ((c.setOp k v t now).getOp k now').1 = none) := by
  refine ⟨fun h => getOp_eq_none_of_lookup_none c k now h,
    fun e he hx => getOp_eq_none_of_expired c k now e he hx, ?_, ?_⟩
  · exact getOp_eq_none_of_lookup_none _ k now (lookupKey_filter_ne k c.entries)
  · intro v t now' hlt
    rcases lookupKey_setOp_cases c k v t now with h | h
    · exact getOp_eq_none_of_expired _ k now' _ h (le_of_lt hlt)
    · exact getOp_eq_none_of_lookup_none _ k now' h

/-- C6 witness: on the cache of a fresh store, an unknown key reads
absent, a deleted key reads absent, and a key set with ttl 10 at time 0
reads absent at time 15. -/
theorem C6_witness :
    lookupKey "k" (mkMemoryStore {}).store.entries = none ∧
    ((mkMemoryStore {}).store.getOp "k" 0).1 = none ∧
    (((mkMemoryStore {}).store.delOp "k").getOp "k" 0).1 = none ∧
    (((mkMemoryStore {}).store.setOp "k" sessMax7000 10 0).getOp "k" 15).1
      = none := by
  have h := C6_get_absent (mkMemoryStore {}).store "k" 0
  exact ⟨rfl, h.1 rfl, h.2.2.1, h.2.2.2 sessMax7000 10 15 (by decide)⟩

/-- C7: setting a key twice leaves the entry of the second call: its
value, its timestamp and its ttl all come from the second call, and a
read before the new expiry returns the second value. -/
theorem C7_replace_refreshes (c : Cache)
    (hmax : c.max = none ∨ ∃ N, c.max = some N ∧ 1 ≤ N)
    (k : String) (v1 v2 : Sess) (t1 t2 now1 now2 : Int) :
    lookupKey k ((c.setOp k v1 t1 now1).setOp k v2 t2 now2).entries
      = some ⟨v2, now2, t2⟩ ∧
    ∀ now', now' < now2 + t2 →
      (((c.setOp k v1 t1 now1).setOp k v2 t2 now2).getOp k now').1
        = some v2 := by
  have hmax' : (c.setOp k v1 t1 now1).max = none ∨
      ∃ N, (c.setOp k v1 t1 now1).max = some N ∧ 1 ≤ N := hmax
  have hl := lookupKey_setOp_self (c.setOp k v1 t1 now1) hmax' k v2 t2 now2
  refine ⟨hl, fun now' h => ?_⟩
  have hx : ¬ ((now2 : Int) + t2 ≤ now') := by omega
  exact getOp_eq_value_of_live _ k now' _ hl hx

/-- C7 witness: on the cache of a fresh store, set k at time 0 with ttl
100 and again at time 50 with ttl 500; the entry carries the second
value, timestamp and ttl, and a read at time 400 returns the second
value. -/
theorem C7_witness :
    lookupKey "k"
        (((mkMemoryStore {}).store.setOp "k" sessNoMaxAge 100 0).setOp
          "k" sessMax7000 500 50).entries
      = some ⟨sessMax7000, 50, 500⟩ ∧
    ((((mkMemoryStore {}).store.setOp "k" sessNoMaxAge 100 0).setOp
        "k" sessMax7000 500 50).getOp "k" 400).1
      = some sessMax7000 := by
  have h := C7_replace_refreshes (mkMemoryStore {}).store (Or.inl rfl)
    "k" sessNoMaxAge sessMax7000 100 500 0 50
  exact ⟨h.1, h.2 400 (by decide)⟩

/-- The delete of a single key is idempotent on the cache. -/
theorem delOp_idem (c : Cache) (k : String) :
    (c.delOp k).delOp k = c.delOp k := by
  simp only [Cache.delOp]
  rw [filter_self_idem]

/-- Folding `delOp` over a batch of keys filters out every entry whose
key is in the batch. -/
theorem foldl_delOp_entries (ks : List String) (c : Cache) :
    List.foldl Cache.delOp c ks
      = ⟨c.entries.filter (fun p => p.1 ∉ ks), c.max⟩ := by
  induction ks generalizing c with
  | nil =>
    have h : c.entries.filter (fun p => p.1 ∉ ([] : List String)) = c.entries :=
      List.filter_eq_self.mpr (fun a _ => by simp)
    simp [h]
  | cons a rest ih =>
    rw [List.foldl_cons, ih]
    have hpt : ∀ x : String × Entry,
        (decide (x.1 ∉ rest) && decide (x.1 ≠ a)) = decide (x.1 ∉ a :: rest) := by
      intro x
      by_cases h1 : x.1 = a <;> by_cases h2 : x.1 ∈ rest <;>
        simp [h1, h2, List.mem_cons]
    simp only [Cache.delOp, List.filter_filter, hpt]

/-- C8: destroy never errors (it is a total operation), destroying an
absent key leaves the store unchanged, and destroying the same key — or
the same batch of keys — twice equals destroying it once. -/
theorem C8_destroy_idempotent (s : MemoryStore) (k : String) (ks : List String) :
    (lookupKey k s.store.entries = none → s.destroy (Sum.inl k) = s) ∧
    (s.destroy (Sum.inl k)).destroy (Sum.inl k) = s.destroy (Sum.inl k) ∧
    (s.destroy (Sum.inr ks)).destroy (Sum.inr ks)
      = s.destroy (Sum.inr ks) := by
  refine ⟨?_, ?_, ?_⟩
  · intro h
    simp only [MemoryStore.destroy, Cache.delOp]
    rw [filter_ne_of_lookup_none k _ h]
  · simp only [MemoryStore.destroy]
    rw [delOp_idem]
  · simp only [MemoryStore.destroy]
    rw [foldl_delOp_entries ks s.store, foldl_delOp_entries ks]
    simp [filter_self_idem]

/-- C8 witness: on a store holding one entry under key z, destroying the
absent key a is the identity, and destroying a (or the batch a, b) twice
equals destroying it once. -/
theorem C8_witness :
    lookupKey "a" (applySets storeTtl5000 [("z", sessMax7000, 0)]).store.entries
      = none ∧
    (applySets storeTtl5000 [("z", sessMax7000, 0)]).destroy (Sum.inl "a")
      = applySets storeTtl5000 [("z", sessMax7000, 0)] ∧
    (((applySets storeTtl5000 [("z", sessMax7000, 0)]).destroy
        (Sum.inl "a")).destroy (Sum.inl "a")
      = (applySets storeTtl5000 [("z", sessMax7000, 0)]).destroy
        (Sum.inl "a")) ∧
    (((applySets storeTtl5000 [("z", sessMax7000, 0)]).destroy
        (Sum.inr ["a", "b"])).destroy (Sum.inr ["a", "b"])
      = (applySets storeTtl5000 [("z", sessMax7000, 0)]).destroy
        (Sum.inr ["a", "b"])) := by
  have h := C8_destroy_idempotent
    (applySets storeTtl5000 [("z", sessMax7000, 0)]) "a" ["a", "b"]
  exact ⟨by decide, h.1 (by decide), h.2.1, h.2.2⟩

/-- C9: when the configured ttl option is absent, `set` and `touch` on a
session without a cookie property do not fall back to the default TTL:
the unguarded read `sess.cookie.maxAge` raises a TypeError, so TTL
resolution is not total over session values. -/
theorem C9_missing_cookie_raises (s : MemoryStore)
    (h : s.options.ttl = TTLVal.undef) (sid : String) (sess : Sess)
    (hc : sess.cookie = none) (now : Int) :
    s.set sid sess now = Except.error JsError.undefinedCookie ∧
    s.touch sid sess now = Except.error JsError.undefinedCookie := by
  have hget : getTTL ⟨TTLVal.undef⟩ sess sid = Except.error JsError.undefinedCookie := by
    simp [getTTL, TTLVal.truthy, hc]
  constructor
  · unfold MemoryStore.set
    rw [h, hget]
  · unfold MemoryStore.touch
    rw [Cache.ttl, hget]

/-- C9 witness: the theorem applied to the default-configured store and
the concrete session without a cookie. -/
theorem C9_witness :
    (mkMemoryStore {}).options.ttl = TTLVal.undef ∧
    sessNoCookie.cookie = none ∧
    (mkMemoryStore {}).set "sid" sessNoCookie 0
      = Except.error JsError.undefinedCookie ∧
    (mkMemoryStore {}).touch "sid" sessNoCookie 0
      = Except.error JsError.undefinedCookie := by
  have h := C9_missing_cookie_raises (mkMemoryStore {}) rfl "sid" sessNoCookie rfl 0
  exact ⟨rfl, rfl, h.1, h.2⟩

/-! ## Capacity and eviction -/

/-- The normalized max is never some 0: a configured 0 is falsy and
becomes Infinity. -/
theorem normMax_pos (o : Option Nat) (N : Nat) (h : normMax o = some N) :
    1 ≤ N := by
  cases o with
  | none => cases h
  | some m =>
    by_cases hm : m = 0
    · simp [normMax, hm] at h
    · simp [normMax, hm] at h
      omega

/-- A successful `set` resolved some ttl and stored the session with it. -/
theorem set_ok_cases (s : MemoryStore) (sid : String) (sess : Sess) (now : Int)
    (s' : MemoryStore) (h : s.set sid sess now = Except.ok s') :
    ∃ t, getTTL ⟨s.options.ttl⟩ sess sid = Except.ok t ∧
      s' = { s with store := s.store.setOp sid sess t now } := by
  unfold MemoryStore.set at h
  cases hg : getTTL ⟨s.options.ttl⟩ sess sid with
  | error e =>
    rw [hg] at h
    exact Except.noConfusion h
  | ok t =>
    rw [hg] at h
    injection h with h
    exact ⟨t, rfl, h.symm⟩

/-- A successful `set` preserves the configured entry cap. -/
theorem set_ok_max (s : MemoryStore) (sid : String) (sess : Sess) (now : Int)
    (s' : MemoryStore) (h : s.set sid sess now = Except.ok s') :
    s'.store.max = s.store.max := by
  obtain ⟨t, _, rfl⟩ := set_ok_cases s sid sess now s' h
  rfl

/-- A successful `set` preserves the configured options. -/
theorem set_ok_options (s : MemoryStore) (sid : String) (sess : Sess) (now : Int)
    (s' : MemoryStore) (h : s.set sid sess now = Except.ok s') :
    s'.options = s.options := by
  obtain ⟨t, _, rfl⟩ := set_ok_cases s sid sess now s' h
  rfl

/-- With a finite cap, the entry list of a `setOp` is at most the cap. -/
theorem setOp_length_le (c : Cache) (N : Nat) (h : c.max = some N)
    (k : String) (v : Sess) (t now : Int) :
    (c.setOp k v t now).entries.length ≤ N := by
  simp only [Cache.setOp, trimToMax, h]
  exact List.length_take_le N _

/-- With a finite cap, a successful `set` leaves at most cap entries. -/
theorem set_ok_length_le (s : MemoryStore) (N : Nat)
    (hmax : s.store.max = some N) (sid : String) (sess : Sess) (now : Int)
    (s' : MemoryStore) (h : s.set sid sess now = Except.ok s') :
    s'.store.itemCount ≤ N := by
  obtain ⟨t, _, rfl⟩ := set_ok_cases s sid sess now s' h
  exact setOp_length_le s.store N hmax sid sess t now

/-- A sequence of `set` calls preserves the configured entry cap. -/
theorem applySets_max (s : MemoryStore) (calls : List (String × Sess × Int)) :
    (applySets s calls).store.max = s.store.max := by
  induction calls generalizing s with
  | nil => rfl
  | cons c rest ih =>
    obtain ⟨sid, sess, now⟩ := c
    rw [applySets]
    cases hg : s.set sid sess now with
    | error e =>
      simp only [hg]
      exact ih s
    | ok s' =>
      simp only [hg]
      rw [ih s', set_ok_max s sid sess now s' hg]

/-- With a finite cap, a sequence of `set` calls never grows the store
past the cap. -/
theorem applySets_itemCount_le (N : Nat) (calls : List (String × Sess × Int))
    (s : MemoryStore) (hmax : s.store.max = some N)
    (hlen : s.store.itemCount ≤ N) :
    (applySets s calls).store.itemCount ≤ N := by
  induction calls generalizing s with
  | nil => exact hlen
  | cons c rest ih =>
    obtain ⟨sid, sess, now⟩ := c
    rw [applySets]
    cases hg : s.set sid sess now with
    | error e =>
      simp only [hg]
      exact ih s hmax hlen
    | ok s' =>
      simp only [hg]
      exact ih s' ((set_ok_max s sid sess now s' hg).trans hmax)
        (set_ok_length_le s N hmax sid sess now s' hg)

/-- C4 counterexample: a store constructed with the finite max entry
count 0 is in fact unbounded (`options.max || Infinity` treats 0 as
falsy), so after one `set` call the live-entry count is 1, exceeding the
configured 0. -/
theorem C4_counterexample :
    (applySets (mkMemoryStore { max := some 0 })
        [("a", sessMax7000, 0)]).store.itemCount = 1 ∧
    ¬ ((1 : Nat) ≤ 0) := by
  exact ⟨rfl, by decide⟩

/-- C4 amended: for a store constructed with a positive finite max N (the
constructor turns a configured 0 into unbounded), after every sequence of
`set` calls the live-entry count is at most N; a further successful `set`
keeps it at most N, and when the store is full and the key is new the new
entry is placed in front of all but the last recency-ordered entry — any
entry removed is exactly the least-recently-inserted-or-read one. -/
theorem C4_capacity_lru (opts : OptionsIn) (N : Nat)
    (hN : normMax opts.max = some N) (calls : List (String × Sess × Int))
    (s₀ : MemoryStore) (hs : applySets (mkMemoryStore opts) calls = s₀) :
    s₀.store.itemCount ≤ N ∧
    ∀ sid sess now s', s₀.set sid sess now = Except.ok s' →
      s'.store.itemCount ≤ N ∧
      (s₀.store.itemCount = N → lookupKey sid s₀.store.entries = none →
        (∀ t, getTTL ⟨s₀.options.ttl⟩ sess sid = Except.ok t →
          s'.store.entries
            = (sid, ⟨sess, now, t⟩) :: s₀.store.entries.dropLast) ∧
        ∀ p ∈ s₀.store.entries, p ∉ s'.store.entries →
          s₀.store.entries.getLast? = some p) := by
  subst hs
  have hmax0 : (mkMemoryStore opts).store.max = some N := by
    simp [mkMemoryStore, normalizeOptions, hN]
  have hmax : (applySets (mkMemoryStore opts) calls).store.max = some N := by
    rw [applySets_max]
    exact hmax0
  refine ⟨applySets_itemCount_le N calls (mkMemoryStore opts) hmax0
    (by simp [mkMemoryStore, Cache.itemCount]), ?_⟩
  intro sid sess now s' hset
  refine ⟨set_ok_length_le _ N hmax sid sess now s' hset, ?_⟩
  intro hfull hnone
  have hNpos : 1 ≤ N := normMax_pos opts.max N hN
  obtain ⟨M, rfl⟩ : ∃ M, N = M + 1 := ⟨N - 1, by omega⟩
  have hfull' : (applySets (mkMemoryStore opts) calls).store.entries.length
      = M + 1 := hfull
  obtain ⟨t₀, hget₀, rfl⟩ := set_ok_cases _ sid sess now s' hset
  have hs' : ((applySets (mkMemoryStore opts) calls).store.setOp
        sid sess t₀ now).entries
      = (sid, ⟨sess, now, t₀⟩)
        :: (applySets (mkMemoryStore opts) calls).store.entries.dropLast := by
    simp only [Cache.setOp]
    rw [filter_ne_of_lookup_none sid _ hnone, hmax]
    simp only [trimToMax, List.take_succ_cons]
    congr 1
    rw [List.dropLast_eq_take, hfull', Nat.add_sub_cancel]
  constructor
  · intro t hget
    rw [hget₀] at hget
    injection hget with hget
    subst hget
    exact hs'
  · intro p hp hnp
    rw [hs'] at hnp
    have hne : (applySets (mkMemoryStore opts) calls).store.entries ≠ [] := by
      intro hnil
      rw [hnil] at hfull'
      cases hfull'
    have hsplit := List.dropLast_append_getLast hne
    rw [← hsplit] at hp
    rcases List.mem_append.mp hp with h1 | h2
    · exact absurd (List.mem_cons_of_mem _ h1) hnp
    · have hpl : p = (applySets (mkMemoryStore opts) calls).store.entries.getLast
          hne := by
        simpa using h2
      rw [hpl]
      exact List.getLast?_eq_getLast _ hne

/-- Keys and sessions of the C4 witness: three inserts into a store
capped at two entries. -/
def c4calls : List (String × Sess × Int) :=
  [("a", sessMax7000, 0), ("b", sessMax7000, 1), ("c", sessMax7000, 2)]

/-- The C4 witness store after the three inserts. -/
def c4store : MemoryStore := applySets (mkMemoryStore { max := some 2 }) c4calls

/-- The C4 witness store after one further insert evicting the
least-recently-used key b. -/
def c4after : MemoryStore :=
  { options := { checkPeriod := oneDay, max := some 2, ttl := TTLVal.undef }
    store := ⟨[("d", ⟨sessMax7000, 3, 7000⟩), ("c", ⟨sessMax7000, 2, 7000⟩)],
      some 2⟩ }

/-- C4 witness: with max 2 and inserts a, b, c the count stays at 2;
inserting d evicts exactly the entry for b, the least recently inserted
or read one. -/
theorem C4_witness :
    c4store.store.itemCount ≤ 2 ∧
    c4after.store.itemCount ≤ 2 ∧
    c4after.store.entries
      = ("d", ⟨sessMax7000, 3, 7000⟩) :: c4store.store.entries.dropLast ∧
    c4store.store.entries.getLast? = some ("b", ⟨sessMax7000, 1, 7000⟩) := by
  have h := C4_capacity_lru { max := some 2 } 2 (by decide) c4calls c4store rfl
  have h2 := h.2 "d" sessMax7000 3 c4after rfl
  have h3 := h2.2 rfl rfl
  exact ⟨h.1, h2.1, h3.1 7000 rfl,
    h3.2 ("b", ⟨sessMax7000, 1, 7000⟩) (by decide) (by decide)⟩

/-! ## Enumeration -/

/-- The entries after `all`: every non-expired entry has its stored value
mutated with `id := key`. -/
theorem all_entries (s : MemoryStore) (now : Int) :
    ((s.all now).2).store.entries = s.store.entries.map (fun p =>
      if p.2.expired now then p
      else (p.1, { p.2 with value := { p.2.value with id := some p.1 } })) := rfl

/-- The adapter `get` reads the cache `getOp`. -/
theorem get_fst (s : MemoryStore) (k : String) (now : Int) :
    (s.get k now).1 = (s.store.getOp k now).1 := rfl

/-- C10: `all` mutates the stored session values, assigning `value.id =
key` on every entry it enumerates (the non-expired ones); consequently
any session value a later `get` returns carries an id equal to its key. -/
theorem C10_all_sets_ids (s : MemoryStore) (now : Int) :
    (∀ p ∈ ((s.all now).2).store.entries, p.2.expired now = false →
      p.2.value.id = some p.1) ∧
    (∀ k now' v, now ≤ now' → (((s.all now).2).get k now').1 = some v →
      v.id = some k) := by
  have hmut : ∀ p ∈ ((s.all now).2).store.entries, p.2.expired now = false →
      p.2.value.id = some p.1 := by
    intro p hp hlive
    rw [all_entries] at hp
    obtain ⟨q, hq, hfq⟩ := List.mem_map.mp hp
    by_cases hexp : q.2.expired now
    · rw [if_pos hexp] at hfq
      rw [← hfq] at hlive
      rw [hexp] at hlive
      cases hlive
    · rw [if_neg hexp] at hfq
      rw [← hfq]
  refine ⟨hmut, ?_⟩
  intro k now' v hle hget
  rw [get_fst] at hget
  cases hl : lookupKey k ((s.all now).2).store.entries with
  | none =>
    rw [getOp_eq_none_of_lookup_none _ k now' hl] at hget
    cases hget
  | some e =>
    by_cases hx : e.insertedAt + e.ttl ≤ now'
    · rw [getOp_eq_none_of_expired _ k now' e hl hx] at hget
      cases hget
    · rw [getOp_eq_value_of_live _ k now' e hl hx] at hget
      injection hget with hget
      have hmem := mem_of_lookupKey k _ e hl
      have hlive : e.expired now = false := by
        simp only [Entry.expired, decide_eq_false_iff_not]
        omega
      have := hmut (k, e) hmem hlive
      rw [← hget]
      exact this

/-- The C10 witness store: one session stored under key a. -/
def c10store : MemoryStore := applySets (mkMemoryStore {}) [("a", sessMax7000, 0)]

/-- The session value as mutated by `all`: id set to its key a. -/
def sessWithId : Sess := { cookie := some ⟨some 7000⟩, id := some "a" }

/-- C10 witness: after `all`, reading key a returns the session value
with its id field set to a. -/
theorem C10_witness :
    ((c10store.all 0).2.get "a" 0).1 = some sessWithId ∧
    sessWithId.id = some "a" := by
  have h := C10_all_sets_ids c10store 0
  have hget : ((c10store.all 0).2.get "a" 0).1 = some sessWithId := by decide
  exact ⟨hget, h.2 "a" 0 sessWithId (by decide) hget⟩

end Memorystore
